import Mathlib

/-!
Shallow embedding of the request-ingestion pipeline of the groupware-warp
repository (src/user/routes.rs, src/company/routes.rs, src/user/controllers.rs),
together with theorems settling the claims about it.

Conventions of the embedding:
* Rust `Result<T, warp::Rejection>` with `ApiError` payloads becomes
  `Except ApiError T`.
* A Rust panic (`Option::unwrap` / `Result::unwrap` on the failing variant)
  is made explicit through the `RunResult` wrapper: `RunResult.panicked`
  marks an execution that panics instead of returning.
* Byte payloads are `List Nat` (each entry one byte), and `String::from_utf8`
  is modelled by an executable UTF-8 decoder.
* The external collaborators (UUID generator, durable storage) are an
  explicit `Env` record; file writes are additionally recorded in an
  observable trace so that theorems can speak about what was written.
-/

deriving instance DecidableEq for Except

/-- `ApiError` from error_handler, as used by the routes: a single-field
parsing error or a multi-field validation error. -/
inductive ApiError where
  | ParsingError (field : String) (message : String)
  | ValidationError (errors : List (String × String))
  deriving DecidableEq, Repr

/-- Rust `str::starts_with` on our model.  (Stated over the character
lists, because the built-in `String.startsWith` does not reduce inside the
kernel.) -/
def strStartsWith (s pre : String) : Bool :=
  pre.data.isPrefixOf s.data

/-- Helper for `strSplitOn`: scan the characters, cutting at each leftmost
non-overlapping occurrence of the (non-empty) separator.  `fuel` bounds the
recursion; it is instantiated with the length of the scanned list, which
suffices since every call consumes at least one character. -/
def splitSepAux (sep : List Char) : Nat → List Char → List Char → List (List Char)
  | _, [], acc => [acc.reverse]
  | 0, rest, acc => [acc.reverse ++ rest]
  | fuel + 1, c :: rest, acc =>
    if sep.isPrefixOf (c :: rest) then
      acc.reverse :: splitSepAux sep fuel ((c :: rest).drop sep.length) []
    else
      splitSepAux sep fuel rest (c :: acc)

/-- Rust `str::split` with a non-empty string pattern (the substrings
between the leftmost non-overlapping occurrences of the separator,
leading/trailing empties included). -/
def strSplitOn (s sep : String) : List String :=
  if sep.data = [] then [s]
  else (splitSepAux sep.data s.data.length s.data []).map fun cs => ⟨cs⟩

/-- Rust `str::parse::<u32>()`: optional leading `+`, decimal digits, value
must fit in 32 bits.  The error strings are the `ParseIntError` messages. -/
def parseU32 (s : String) : Except String Nat :=
  if s.data = [] then
    .error "cannot parse integer from empty string"
  else
    let digits := if s.data.headD ' ' = '+' then s.data.drop 1 else s.data
    if digits = [] then
      .error "invalid digit found in string"
    else if digits.all Char.isDigit then
      let n := digits.foldl (fun acc c => acc * 10 + (c.toNat - 48)) 0
      if n < 2 ^ 32 then .ok n
      else .error "number too large to fit in target type"
    else
      .error "invalid digit found in string"

/-- `FindUsersParams` (src/user/models.rs counterpart): raw query strings. -/
structure FindUsersParams where
  search : Option String
  sort_by : Option String
  limit : Option String
  deriving DecidableEq, Repr

/-- `FindUsersRequest`: the typed find request for users. -/
structure FindUsersRequest where
  search : Option String
  sort_by : Option String
  limit : Option Nat
  deriving DecidableEq, Repr

/-- `FindUsersRequest::default()`. -/
def FindUsersRequest.default : FindUsersRequest :=
  { search := none, sort_by := none, limit := none }

/-- `with_find_request` of src/user/routes.rs (the closure passed to
`and_then`), translated clause by clause.  Note the source's range test
`limit < 1 && limit > 100` is kept verbatim. -/
def user_with_find_request (params : FindUsersParams) :
    Except ApiError FindUsersRequest :=
  let req := FindUsersRequest.default
  let req := if params.search.isSome then { req with search := params.search } else req
  match params.sort_by with
  | some sb =>
    if sb = "name" ∨ sb = "email" then
      let req := { req with sort_by := some sb }
      match params.limit with
      | some ls =>
        match parseU32 ls with
        | .error e => .error (.ParsingError "limit" e)
        | .ok limit =>
          if limit < 1 ∧ limit > 100 then
            .error (.ParsingError "limit" "Must be between 1 and 100")
          else
            .ok { req with limit := some limit }
      | none => .ok req
    else
      .error (.ParsingError "sort_by" "Must be one of name and email")
  | none =>
    match params.limit with
    | some ls =>
      match parseU32 ls with
      | .error e => .error (.ParsingError "limit" e)
      | .ok limit =>
        if limit < 1 ∧ limit > 100 then
          .error (.ParsingError "limit" "Must be between 1 and 100")
        else
          .ok { req with limit := some limit }
    | none => .ok req

/-- `FindCompaniesParams`: raw query strings for companies. -/
structure FindCompaniesParams where
  search : Option String
  sort_by : Option String
  limit : Option String
  deriving DecidableEq, Repr

/-- `FindCompaniesRequest`: the typed find request for companies. -/
structure FindCompaniesRequest where
  search : Option String
  sort_by : Option String
  limit : Option Nat
  deriving DecidableEq, Repr

/-- `FindCompaniesRequest::default()`. -/
def FindCompaniesRequest.default : FindCompaniesRequest :=
  { search := none, sort_by := none, limit := none }

/-- `with_find_request` of src/company/routes.rs: identical to the users
version except the accepted sort set is `"name" | "since"`; the error
message string is the one in the source (`"Must be one of name and email"`). -/
def company_with_find_request (params : FindCompaniesParams) :
    Except ApiError FindCompaniesRequest :=
  let req := FindCompaniesRequest.default
  let req := if params.search.isSome then { req with search := params.search } else req
  match params.sort_by with
  | some sb =>
    if sb = "name" ∨ sb = "since" then
      let req := { req with sort_by := some sb }
      match params.limit with
      | some ls =>
        match parseU32 ls with
        | .error e => .error (.ParsingError "limit" e)
        | .ok limit =>
          if limit < 1 ∧ limit > 100 then
            .error (.ParsingError "limit" "Must be between 1 and 100")
          else
            .ok { req with limit := some limit }
      | none => .ok req
    else
      .error (.ParsingError "sort_by" "Must be one of name and email")
  | none =>
    match params.limit with
    | some ls =>
      match parseU32 ls with
      | .error e => .error (.ParsingError "limit" e)
      | .ok limit =>
        if limit < 1 ∧ limit > 100 then
          .error (.ParsingError "limit" "Must be between 1 and 100")
        else
          .ok { req with limit := some limit }
    | none => .ok req

/-- The `terms` vector built by `find_users` in src/user/controllers.rs.
The filter / sort / limit pushes are commented out in the source, so only
the base clause and the return clause remain; the base clause iterates the
`companies` collection. -/
def find_users_terms : List String :=
  ["FOR x IN companies"] ++ ["RETURN x"]

/-- `terms.join(" ")`: the AQL text sent by `find_users`. -/
def find_users_query : String :=
  String.intercalate " " find_users_terms

/-- The bind-variable map built by `find_users`: nothing is ever inserted
(the inserting code is commented out in the source). -/
def find_users_vars : List (String × String) :=
  []

/-- One multipart `Part` (named `FormPart` here because Mathlib already has
a `Part`): field name, optional original filename, optional declared content
type, and the byte stream (which may fail while being drained, carrying the
failure message). -/
structure FormPart where
  name : String
  filename : Option String
  contentType : Option String
  stream : Except String (List Nat)
  deriving Repr

/-- External collaborators of the multipart engine: the UUID generator
(indexed by how many files were stored before in this request) and the
durable-storage write, which either succeeds or fails with a message. -/
structure Env where
  uuid : Nat → String
  writeResult : String → List Nat → Except String Unit

/-- Outcome of running route code that may panic: Rust `unwrap` on a
failing value is `panicked`; a normal return is `value`. -/
inductive RunResult (α : Type) where
  | panicked
  | value (a : α)
  deriving DecidableEq, Repr

/-- `HashMap::insert`, on the association-list model: overwrite the
binding of the key if present, else append. -/
def insertKV : List (String × String) → String → String → List (String × String)
  | [], k, v => [(k, v)]
  | (k', v') :: rest, k, v =>
    if k' = k then (k, v) :: rest else (k', v') :: insertKV rest k v

/-- `HashMap::get` on the association-list model. -/
def lookupKV : List (String × String) → String → Option String
  | [], _ => none
  | (k', v') :: rest, k => if k' = k then some v' else lookupKV rest k

/-- `Path::new(s).extension()` (with `OsStr::to_str`, which on our `String`
model always succeeds): the part of the last path component after its last
dot, `none` when there is no dot or the only dot is the leading one. -/
def rustExtension (s : String) : Option String :=
  let fileName := (strSplitOn s "/").getLastD ""
  let pieces := strSplitOn fileName "."
  match pieces with
  | [] => none
  | [_] => none
  | ps => if ps.length = 2 ∧ ps.headD "" = "" then none else some (ps.getLastD "")

/-- Decode one UTF-8 scalar value from the front of the byte list, with the
same validity rules as Rust `String::from_utf8` (continuation bytes checked,
overlong encodings, surrogates and values above 0x10FFFF rejected).
Returns the decoded character and the remaining bytes. -/
def utf8DecodeOne : List Nat → Option (Char × List Nat)
  | [] => none
  | b :: rest =>
    if b < 0x80 then
      some (Char.ofNat b, rest)
    else if b < 0xC2 then none
    else if b < 0xE0 then
      match rest with
      | c1 :: r =>
        if 0x80 ≤ c1 ∧ c1 < 0xC0 then
          let cp := (b - 0xC0) * 64 + (c1 - 0x80)
          if 0x80 ≤ cp ∧ cp < 0x800 then
            some (Char.ofNat cp, r)
          else none
        else none
      | [] => none
    else if b < 0xF0 then
      match rest with
      | c1 :: c2 :: r =>
        if 0x80 ≤ c1 ∧ c1 < 0xC0 ∧ 0x80 ≤ c2 ∧ c2 < 0xC0 then
          let cp := (b - 0xE0) * 4096 + (c1 - 0x80) * 64 + (c2 - 0x80)
          if 0x800 ≤ cp ∧ cp < 0x10000 ∧ (cp < 0xD800 ∨ 0xDFFF < cp) then
            some (Char.ofNat cp, r)
          else none
        else none
      | _ => none
    else if b < 0xF5 then
      match rest with
      | c1 :: c2 :: c3 :: r =>
        if 0x80 ≤ c1 ∧ c1 < 0xC0 ∧ 0x80 ≤ c2 ∧ c2 < 0xC0 ∧ 0x80 ≤ c3 ∧ c3 < 0xC0 then
          let cp := (b - 0xF0) * 262144 + (c1 - 0x80) * 4096 + (c2 - 0x80) * 64 + (c3 - 0x80)
          if 0x10000 ≤ cp ∧ cp < 0x110000 then
            some (Char.ofNat cp, r)
          else none
        else none
      | _ => none
    else none

/-- Fuelled UTF-8 decoding loop (fuel bounds the number of characters,
one byte at least is consumed per character). -/
def utf8DecodeAux : Nat → List Nat → Option (List Char)
  | _, [] => some []
  | 0, _ :: _ => none
  | fuel + 1, bs =>
    match utf8DecodeOne bs with
    | none => none
    | some (c, r) =>
      match utf8DecodeAux fuel r with
      | none => none
      | some cs => some (c :: cs)

/-- Rust `String::from_utf8`: `none` models the `FromUtf8Error` case. -/
def utf8Decode (bs : List Nat) : Option String :=
  (utf8DecodeAux bs.length bs).map fun cs => ⟨cs⟩

/-- What `accept_uploading` produces besides its return value: the field
map it returns, and the trace of (path, bytes) writes it performed on the
storage collaborator, in order. -/
structure UploadOutput where
  vars : List (String × String)
  writes : List (String × List Nat)
  deriving DecidableEq, Repr

/-- The body of the `for p in parts` loop of `accept_uploading`
(src/user/routes.rs), for one part.  `counter` counts the files stored so
far in this request (feeding the UUID generator).  Panics are explicit:
`p.content_type().unwrap()` when a file part declares no content type,
`extension().and_then(OsStr::to_str).unwrap()` when the image filename has
no extension, the `map_err(..).unwrap()` on a stream-read failure, the
`map_err(..).unwrap()` on a write failure, and `String::from_utf8(..).unwrap()`
on non-UTF-8 text bytes. -/
def acceptPart (env : Env) (counter : Nat) (acc : UploadOutput) (p : FormPart) :
    RunResult (Except ApiError (UploadOutput × Nat)) :=
  let fieldName := p.name
  let extStep : RunResult (Except ApiError (Option String)) :=
    match p.filename with
    | none => .value (.ok none)
    | some fn =>
      match p.contentType with
      | none => .panicked
      | some ct =>
        if strStartsWith ct "image/" then
          match rustExtension fn with
          | none => .panicked
          | some ext => .value (.ok (some ext))
        else
          .value (.error (.ParsingError "avatar" ("invalid file type found: " ++ ct)))
  match extStep with
  | .panicked => .panicked
  | .value (.error e) => .value (.error e)
  | .value (.ok fileExtension) =>
    match p.stream with
    | .error _ => .panicked
    | .ok bytes =>
      match fileExtension with
      | some ext =>
        let newFilename := env.uuid counter ++ "." ++ ext
        match env.writeResult newFilename bytes with
        | .error _ => .panicked
        | .ok _ =>
          let relFilepath := "/storage/" ++ newFilename
          .value (.ok ({ vars := insertKV acc.vars fieldName relFilepath,
                         writes := acc.writes ++ [("storage/" ++ newFilename, bytes)] },
                       counter + 1))
      | none =>
        match utf8Decode bytes with
        | none => .panicked
        | some text =>
          .value (.ok ({ acc with vars := insertKV acc.vars fieldName text }, counter))

/-- The sequential fold of `accept_uploading` over the parts. -/
def acceptLoop (env : Env) : Nat → UploadOutput → List FormPart →
    RunResult (Except ApiError UploadOutput)
  | _, acc, [] => .value (.ok acc)
  | counter, acc, p :: ps =>
    match acceptPart env counter acc p with
    | .panicked => .panicked
    | .value (.error e) => .value (.error e)
    | .value (.ok (acc', counter')) => acceptLoop env counter' acc' ps

/-- `accept_uploading` of src/user/routes.rs: fold the parts strictly
sequentially into a field map, storing file parts on the way. -/
def accept_uploading (env : Env) (parts : List FormPart) :
    RunResult (Except ApiError UploadOutput) :=
  acceptLoop env 0 { vars := [], writes := [] } parts

/-- `CreateUserParams`: the multipart create request for users (all fields
optional at assembly time; semantic validation happens afterwards). -/
structure CreateUserParams where
  name : Option String
  email : Option String
  password : Option String
  password_confirmation : Option String
  avatar : Option String
  deriving DecidableEq, Repr

/-- Assembling `CreateUserParams` from the field map, as the source does
with `contains_key` / `get(..).unwrap()` per recognized key. -/
def buildCreateUserParams (vars : List (String × String)) : CreateUserParams :=
  { name := lookupKV vars "name",
    email := lookupKV vars "email",
    password := lookupKV vars "password",
    password_confirmation := lookupKV vars "password_confirmation",
    avatar := lookupKV vars "avatar" }

/-- `validate_create_params` of src/user/routes.rs.  `formResult` is the
outcome of `form.try_collect()` (collecting the multipart stream into
parts); `validate` abstracts the `validator::Validate` rules of the user
model (a file outside the given sources), returning the per-field messages
on failure.  The source calls `.map_err(reject).unwrap()` on the collect
result and on `accept_uploading`'s result, so both failure branches panic
in the model. -/
def validate_create_params (env : Env)
    (validate : CreateUserParams → Except (List (String × String)) Unit)
    (formResult : Except String (List FormPart)) :
    RunResult (Except ApiError CreateUserParams) :=
  match formResult with
  | .error _ => .panicked
  | .ok parts =>
    match accept_uploading env parts with
    | .panicked => .panicked
    | .value (.error _) => .panicked
    | .value (.ok out) =>
      let params := buildCreateUserParams out.vars
      match validate params with
      | .ok _ => .value (.ok params)
      | .error errs => .value (.error (.ValidationError errs))

/-- The decode-failure arm shared by `validate_create_params`,
`validate_update_params` and `validate_delete_params` of
src/company/routes.rs: split the `serde_path_to_error` message on `": "`
and build `ParsingError(pieces[0], pieces[1])`.  When the split yields
fewer than two pieces, the index `pieces[1]` panics. -/
def split_decode_error (e : String) : RunResult ApiError :=
  match strSplitOn e ": " with
  | p0 :: p1 :: _ => .value (.ParsingError p0 p1)
  | _ => .panicked

/-- The shape shared by the three company body decoders: a structural
decode (abstracted as its `Except` outcome, the error carrying the
`serde_path_to_error` display string), then semantic validation. -/
def company_validate_params {α : Type}
    (validate : α → Except (List (String × String)) Unit)
    (decode : Except String α) :
    RunResult (Except ApiError α) :=
  match decode with
  | .error e =>
    match split_decode_error e with
    | .panicked => .panicked
    | .value err => .value (.error err)
  | .ok params =>
    match validate params with
    | .ok _ => .value (.ok params)
    | .error errs => .value (.error (.ValidationError errs))

/-- Written from the words of the spec and of claim C6, for comparison with
`split_decode_error`: field is the substring before the FIRST `": "`,
message is the ENTIRE remainder after that first separator (`none` when the
string has no separator). -/
def claimed_decode_split (e : String) : Option (String × String) :=
  match strSplitOn e ": " with
  | [] => none
  | [_] => none
  | f :: rest => some (f, String.intercalate ": " rest)

/-- The bytes of an ASCII string, for concrete multipart payloads. -/
def asciiBytes (s : String) : List Nat :=
  s.data.map Char.toNat

/-- A concrete collaborator environment for concrete runs: deterministic
UUIDs and a storage write that always succeeds. -/
def testEnv : Env :=
  { uuid := fun n => "uuid" ++ toString n, writeResult := fun _ _ => .ok () }

/-- A semantic-validation stub that accepts everything, for runs that never
reach the validation phase. -/
def okValidate : CreateUserParams → Except (List (String × String)) Unit :=
  fun _ => .ok ()

/-- The last part with the given field name in a part sequence, in arrival
order. -/
def lastPartNamed (n : String) : List FormPart → Option FormPart
  | [] => none
  | p :: ps =>
    match lastPartNamed n ps with
    | some q => some q
    | none => if p.name = n then some p else none

/-- C1: the source's range test `limit < 1 && limit > 100` is unsatisfiable,
so every string that parses as a u32 — including "0" and "101" — is accepted
into the FindRequest, and the "Must be between 1 and 100" rejection is
unreachable: the claim's out-of-range failure branch never happens, for
users and companies alike. -/
theorem limit_range_check_never_rejects :
    (∀ s n, parseU32 s = .ok n →
      user_with_find_request { search := none, sort_by := none, limit := some s } =
        .ok { search := none, sort_by := none, limit := some n })
    ∧ (∀ s n, parseU32 s = .ok n →
      company_with_find_request { search := none, sort_by := none, limit := some s } =
        .ok { search := none, sort_by := none, limit := some n })
    ∧ user_with_find_request { search := none, sort_by := none, limit := some "0" } =
        .ok { search := none, sort_by := none, limit := some 0 }
    ∧ user_with_find_request { search := none, sort_by := none, limit := some "101" } =
        .ok { search := none, sort_by := none, limit := some 101 }
    ∧ company_with_find_request { search := none, sort_by := none, limit := some "0" } =
        .ok { search := none, sort_by := none, limit := some 0 } := by
  refine ⟨?_, ?_, by decide, by decide, by decide⟩
  · intro s n h
    simp [user_with_find_request, FindUsersRequest.default, h]
    omega
  · intro s n h
    simp [company_with_find_request, FindCompaniesRequest.default, h]
    omega

/-- Witness for the quantified conjuncts of
`limit_range_check_never_rejects`, at the concrete limit string "7". -/
theorem limit_range_check_never_rejects_witness :
    user_with_find_request { search := none, sort_by := none, limit := some "7" } =
      .ok { search := none, sort_by := none, limit := some 7 } :=
  limit_range_check_never_rejects.1 "7" 7 (by decide)

/-- C2: the multipart pipeline panics (it does not produce an ErrorReport
rejection) on each listed kind of user-supplied bad input: a form that
fails to collect, a part with a non-image declared content type (the
rejection built by `accept_uploading` is destroyed by the caller's
`unwrap`), a stream-read failure, and a non-file part whose bytes are not
valid UTF-8. -/
theorem multipart_pipeline_panics_on_bad_input :
    validate_create_params testEnv okValidate (.error "invalid multipart payload") = .panicked
    ∧ validate_create_params testEnv okValidate
        (.ok [{ name := "avatar", filename := some "photo.png",
                contentType := some "text/plain", stream := .ok [1, 2, 3] }]) = .panicked
    ∧ validate_create_params testEnv okValidate
        (.ok [{ name := "name", filename := none,
                contentType := none, stream := .error "connection reset" }]) = .panicked
    ∧ validate_create_params testEnv okValidate
        (.ok [{ name := "name", filename := none,
                contentType := none, stream := .ok [255] }]) = .panicked := by
  refine ⟨rfl, by decide, by decide, by decide⟩

/-- C3: the query built by `find_users` for any FindRequest is the constant
text "FOR x IN companies RETURN x" with an empty bind-variable map — the
filter, sort and limit clauses the claim describes are absent (that code is
commented out in the source). -/
theorem find_users_query_has_no_clauses :
    find_users_query = "FOR x IN companies RETURN x"
    ∧ find_users_vars = []
    ∧ strSplitOn find_users_query "FILTER" = [find_users_query]
    ∧ strSplitOn find_users_query "SORT" = [find_users_query]
    ∧ strSplitOn find_users_query "LIMIT" = [find_users_query] := by
  refine ⟨rfl, rfl, by decide, by decide, by decide⟩

/-- C4: the base clause of the query built by `find_users` iterates the
`companies` collection, not the `users` collection the claim names. -/
theorem find_users_iterates_companies_collection :
    find_users_terms.headD "" = "FOR x IN companies"
    ∧ strStartsWith find_users_query "FOR x IN companies" = true
    ∧ strStartsWith find_users_query "FOR x IN users" = false := by
  refine ⟨rfl, by decide, by decide⟩

/-- C5: the companies normalizer accepts exactly {"name","since"} but its
rejection message is "Must be one of name and email": it names "email"
(which the companies route rejects) and does not mention "since" (which it
accepts), so the message does not enumerate the allowed set. -/
theorem company_sort_message_names_wrong_set :
    company_with_find_request { search := none, sort_by := some "bogus", limit := none } =
      .error (.ParsingError "sort_by" "Must be one of name and email")
    ∧ company_with_find_request { search := none, sort_by := some "since", limit := none } =
      .ok { search := none, sort_by := some "since", limit := none }
    ∧ company_with_find_request { search := none, sort_by := some "name", limit := none } =
      .ok { search := none, sort_by := some "name", limit := none }
    ∧ company_with_find_request { search := none, sort_by := some "email", limit := none } =
      .error (.ParsingError "sort_by" "Must be one of name and email")
    ∧ strSplitOn "Must be one of name and email" "since" = ["Must be one of name and email"] := by
  refine ⟨by decide, by decide, by decide, by decide, by decide⟩

/-- C6 counterexample: on a decode error string with more than one ": "
separator, the produced message is only the text up to the NEXT separator
(`pieces[1]`), not the entire remainder after the first separator as the
claim states. -/
theorem decode_error_split_counterexample :
    split_decode_error "email: invalid type: integer" =
      .value (.ParsingError "email" "invalid type")
    ∧ claimed_decode_split "email: invalid type: integer" =
      some ("email", "invalid type: integer")
    ∧ ("invalid type" : String) ≠ "invalid type: integer" := by
  refine ⟨by decide, by decide, by decide⟩

/-- C6 amended: on a structural decode failure, the ParsingError's field is
the piece of the error string before the first ": " and its message is the
SECOND piece of the split (the text between the first and second
separators; the whole remainder only when there is a single separator). -/
theorem company_decode_error_field_and_message {α : Type}
    (validate : α → Except (List (String × String)) Unit)
    (e p0 p1 : String) (rest : List String)
    (h : strSplitOn e ": " = p0 :: p1 :: rest) :
    company_validate_params validate (.error e : Except String α) =
      .value (.error (.ParsingError p0 p1)) := by
  simp [company_validate_params, split_decode_error, h]

/-- Witness for `company_decode_error_field_and_message` on a concrete
two-separator decode error string. -/
theorem company_decode_error_field_and_message_witness :
    company_validate_params okValidate
        (.error "avatar: data did not match: any variant" : Except String CreateUserParams) =
      .value (.error (.ParsingError "avatar" "data did not match")) :=
  company_decode_error_field_and_message okValidate
    "avatar: data did not match: any variant" "avatar" "data did not match"
    ["any variant"] (by decide)

/-- C7: a file part (filename present) whose declared content type does not
start with "image/" makes the ingestion loop — and hence `accept_uploading`
— return ParsingError("avatar", "invalid file type found: <declared-type>"),
whatever parts follow and whatever was accumulated before; and a part
without a filename is never subjected to the content-type check (the
outcome is independent of its declared content type). -/
theorem accept_uploading_content_type_policy :
    (∀ env k acc p ps fn ct, p.filename = some fn → p.contentType = some ct →
        strStartsWith ct "image/" = false →
        acceptLoop env k acc (p :: ps) =
          .value (.error (.ParsingError "avatar" ("invalid file type found: " ++ ct))))
    ∧ (∀ env p ps fn ct, p.filename = some fn → p.contentType = some ct →
        strStartsWith ct "image/" = false →
        accept_uploading env (p :: ps) =
          .value (.error (.ParsingError "avatar" ("invalid file type found: " ++ ct))))
    ∧ (∀ env nm ct1 ct2 st ps,
        accept_uploading env
          ({ name := nm, filename := none, contentType := ct1, stream := st } :: ps) =
        accept_uploading env
          ({ name := nm, filename := none, contentType := ct2, stream := st } :: ps)) := by
  have base : ∀ env k acc (p : FormPart) ps fn ct, p.filename = some fn →
      p.contentType = some ct → strStartsWith ct "image/" = false →
      acceptLoop env k acc (p :: ps) =
        .value (.error (.ParsingError "avatar" ("invalid file type found: " ++ ct))) := by
    intro env k acc p ps fn ct h1 h2 h3
    simp [acceptLoop, acceptPart, h1, h2, h3]
  refine ⟨base, ?_, ?_⟩
  · intro env p ps fn ct h1 h2 h3
    exact base env 0 { vars := [], writes := [] } p ps fn ct h1 h2 h3
  · intro env nm ct1 ct2 st ps
    simp [accept_uploading, acceptLoop, acceptPart]

/-- Witness for `accept_uploading_content_type_policy` on a concrete
text/plain file part. -/
theorem accept_uploading_content_type_policy_witness :
    accept_uploading testEnv
        [⟨"avatar", some "photo.png", some "text/plain", .ok [1, 2, 3]⟩] =
      .value (.error (.ParsingError "avatar" ("invalid file type found: " ++ "text/plain"))) :=
  accept_uploading_content_type_policy.2.1 testEnv
    ⟨"avatar", some "photo.png", some "text/plain", .ok [1, 2, 3]⟩
    [] "photo.png" "text/plain" rfl rfl (by decide)

/-- C8: a file part with an "image/"-prefixed declared type and an
extension `ext`, whose stream drains to `bytes` and whose storage write
succeeds, causes exactly one write of `bytes` under the fresh name
`<uuid>.<ext>` in the storage directory, and binds the part's field to
"/storage/<uuid>.<ext>" in the result map. -/
theorem accept_uploading_stores_image_file :
    (∀ env k acc (p : FormPart) ps fn ct ext bytes,
        p.filename = some fn → p.contentType = some ct →
        strStartsWith ct "image/" = true → rustExtension fn = some ext →
        p.stream = .ok bytes →
        env.writeResult (env.uuid k ++ "." ++ ext) bytes = .ok () →
        acceptLoop env k acc (p :: ps) =
          acceptLoop env (k + 1)
            { vars := insertKV acc.vars p.name ("/storage/" ++ (env.uuid k ++ "." ++ ext)),
              writes := acc.writes ++ [("storage/" ++ (env.uuid k ++ "." ++ ext), bytes)] } ps)
    ∧ (∀ env (p : FormPart) fn ct ext bytes,
        p.filename = some fn → p.contentType = some ct →
        strStartsWith ct "image/" = true → rustExtension fn = some ext →
        p.stream = .ok bytes →
        env.writeResult (env.uuid 0 ++ "." ++ ext) bytes = .ok () →
        accept_uploading env [p] =
          .value (.ok { vars := [(p.name, "/storage/" ++ (env.uuid 0 ++ "." ++ ext))],
                        writes := [("storage/" ++ (env.uuid 0 ++ "." ++ ext), bytes)] })) := by
  have base : ∀ env k acc (p : FormPart) ps fn ct ext bytes,
      p.filename = some fn → p.contentType = some ct →
      strStartsWith ct "image/" = true → rustExtension fn = some ext →
      p.stream = .ok bytes →
      env.writeResult (env.uuid k ++ "." ++ ext) bytes = .ok () →
      acceptLoop env k acc (p :: ps) =
        acceptLoop env (k + 1)
          { vars := insertKV acc.vars p.name ("/storage/" ++ (env.uuid k ++ "." ++ ext)),
            writes := acc.writes ++ [("storage/" ++ (env.uuid k ++ "." ++ ext), bytes)] } ps := by
    intro env k acc p ps fn ct ext bytes h1 h2 h3 h4 h5 h6
    simp [acceptLoop, acceptPart, h1, h2, h3, h4, h5, h6]
  refine ⟨base, ?_⟩
  intro env p fn ct ext bytes h1 h2 h3 h4 h5 h6
  rw [accept_uploading, base env 0 { vars := [], writes := [] } p [] fn ct ext bytes h1 h2 h3 h4 h5 h6]
  simp [acceptLoop, insertKV]

/-- Witness for `accept_uploading_stores_image_file` on a concrete PNG
part under the concrete environment. -/
theorem accept_uploading_stores_image_file_witness :
    accept_uploading testEnv
        [⟨"avatar", some "photo.png", some "image/png", .ok [1, 2, 3]⟩] =
      .value (.ok { vars := [("avatar", "/storage/" ++ (testEnv.uuid 0 ++ "." ++ "png"))],
                    writes := [("storage/" ++ (testEnv.uuid 0 ++ "." ++ "png"), [1, 2, 3])] }) :=
  accept_uploading_stores_image_file.2 testEnv
    ⟨"avatar", some "photo.png", some "image/png", .ok [1, 2, 3]⟩
    "photo.png" "image/png" "png" [1, 2, 3] rfl rfl (by decide) (by decide) rfl rfl

theorem lookup_insertKV_self (m : List (String × String)) (k v : String) :
    lookupKV (insertKV m k v) k = some v := by
  induction m with
  | nil => simp [insertKV, lookupKV]
  | cons kv rest ih =>
    by_cases h : kv.1 = k
    · simp [insertKV, lookupKV, h]
    · simp [insertKV, lookupKV, h, ih]

theorem lookup_insertKV_ne (m : List (String × String)) (k v k' : String)
    (hne : k' ≠ k) : lookupKV (insertKV m k v) k' = lookupKV m k' := by
  have hne' : ¬(k = k') := fun h => hne h.symm
  induction m with
  | nil => simp [insertKV, lookupKV, hne']
  | cons kv rest ih =>
    rcases kv with ⟨k1, v1⟩
    by_cases h : k1 = k
    · subst h
      simp [insertKV, lookupKV, hne']
    · simp [insertKV, lookupKV, h, ih]

theorem acceptPart_ok_insert (env : Env) (k : Nat) (acc : UploadOutput)
    (p : FormPart) (acc' : UploadOutput) (k' : Nat)
    (h : acceptPart env k acc p = .value (.ok (acc', k'))) :
    ∃ val, acc'.vars = insertKV acc.vars p.name val := by
  rcases p with ⟨nm, fn, ct, st⟩
  cases fn with
  | none =>
    cases st with
    | error e => simp [acceptPart] at h
    | ok bytes =>
      cases hd : utf8Decode bytes with
      | none => simp [acceptPart, hd] at h
      | some text =>
        simp [acceptPart, hd] at h
        exact ⟨text, by rw [← h.1]⟩
  | some fname =>
    cases ct with
    | none => simp [acceptPart] at h
    | some ctv =>
      by_cases him : strStartsWith ctv "image/"
      · cases hext : rustExtension fname with
        | none => simp [acceptPart, him, hext] at h
        | some ext =>
          cases st with
          | error e => simp [acceptPart, him, hext] at h
          | ok bytes =>
            cases hwr : env.writeResult (env.uuid k ++ "." ++ ext) bytes with
            | error e => simp [acceptPart, him, hext, hwr] at h
            | ok u =>
              simp [acceptPart, him, hext, hwr] at h
              exact ⟨"/storage/" ++ (env.uuid k ++ "." ++ ext), by rw [← h.1]⟩
      · simp [acceptPart, him] at h

theorem acceptLoop_lookup_no_part (env : Env) (n : String) :
    ∀ (ps : List FormPart) (k : Nat) (acc out : UploadOutput),
      lastPartNamed n ps = none →
      acceptLoop env k acc ps = .value (.ok out) →
      lookupKV out.vars n = lookupKV acc.vars n := by
  intro ps
  induction ps with
  | nil =>
    intro k acc out _ hrun
    simp [acceptLoop] at hrun
    rw [← hrun]
  | cons q ps ih =>
    intro k acc out hlast hrun
    simp only [lastPartNamed] at hlast
    cases hq : lastPartNamed n ps with
    | some r => rw [hq] at hlast; simp at hlast
    | none =>
      rw [hq] at hlast
      simp only [acceptLoop] at hrun
      cases hp : acceptPart env k acc q with
      | panicked => rw [hp] at hrun; simp at hrun
      | value res =>
        cases res with
        | error e => rw [hp] at hrun; simp at hrun
        | ok pr =>
          rcases pr with ⟨acc', k'⟩
          rw [hp] at hrun
          simp only [] at hrun
          obtain ⟨val, hins⟩ := acceptPart_ok_insert env k acc q acc' k' hp
          have hname : ¬(q.name = n) := by
            intro he
            rw [if_pos he] at hlast
            simp at hlast
          rw [ih k' acc' out hq hrun, hins, lookup_insertKV_ne]
          exact fun he => hname he.symm

theorem acceptLoop_lookup_last (env : Env) (n : String) (p : FormPart)
    (bs : List Nat) (v : String)
    (hfile : p.filename = none) (hbs : p.stream = .ok bs)
    (hv : utf8Decode bs = some v) :
    ∀ (ps : List FormPart) (k : Nat) (acc out : UploadOutput),
      lastPartNamed n ps = some p →
      acceptLoop env k acc ps = .value (.ok out) →
      lookupKV out.vars n = some v := by
  intro ps
  induction ps with
  | nil =>
    intro k acc out hlast
    simp [lastPartNamed] at hlast
  | cons q ps ih =>
    intro k acc out hlast hrun
    simp only [lastPartNamed] at hlast
    simp only [acceptLoop] at hrun
    cases hq : lastPartNamed n ps with
    | some r =>
      rw [hq] at hlast
      simp at hlast
      cases hp : acceptPart env k acc q with
      | panicked => rw [hp] at hrun; simp at hrun
      | value res =>
        cases res with
        | error e => rw [hp] at hrun; simp at hrun
        | ok pr =>
          rcases pr with ⟨acc', k'⟩
          rw [hp] at hrun
          simp only [] at hrun
          exact ih k' acc' out (hlast ▸ hq) hrun
    | none =>
      rw [hq] at hlast
      by_cases hname : q.name = n
      · rw [if_pos hname] at hlast
        have hqp : q = p := by injection hlast
        subst hqp
        have hp : acceptPart env k acc q =
            .value (.ok ({ acc with vars := insertKV acc.vars q.name v }, k)) := by
          rcases q with ⟨nm, fn, ct, st⟩
          simp only at hfile hbs
          subst hfile
          subst hbs
          simp [acceptPart, hv]
        rw [hp] at hrun
        simp only [] at hrun
        rw [acceptLoop_lookup_no_part env n ps k
          { acc with vars := insertKV acc.vars q.name v } out hq hrun]
        subst hname
        exact lookup_insertKV_self acc.vars q.name v
      · rw [if_neg hname] at hlast
        simp at hlast

/-- C9 counterexample: a sequence with two non-file parts named "name"
("Alice" then "Bob") followed by a FILE part also named "name" binds
"name" to the stored file's path, not to "Bob", the value of the last
non-file part — so the claim fails as stated when a later file part shares
the field name. -/
theorem last_write_wins_counterexample :
    accept_uploading testEnv
        [⟨"name", none, none, .ok (asciiBytes "Alice")⟩,
         ⟨"name", none, none, .ok (asciiBytes "Bob")⟩,
         ⟨"name", some "p.png", some "image/png", .ok [1]⟩] =
      .value (.ok { vars := [("name", "/storage/uuid0.png")],
                    writes := [("storage/uuid0.png", [1])] })
    ∧ utf8Decode (asciiBytes "Bob") = some "Bob"
    ∧ ("/storage/uuid0.png" : String) ≠ "Bob" := by
  refine ⟨by decide, by decide, by decide⟩

/-- C9 amended: for every part sequence on which `accept_uploading`
succeeds, if the LAST part carrying a given field name is a non-file part,
the result map binds that name to that part's decoded value (last write
wins over all earlier parts with that name, file or not, since parts are
folded strictly sequentially). -/
theorem accept_uploading_last_write_wins
    (env : Env) (ps : List FormPart) (out : UploadOutput) (n : String)
    (p : FormPart) (bs : List Nat) (v : String)
    (hrun : accept_uploading env ps = .value (.ok out))
    (hlast : lastPartNamed n ps = some p)
    (hfile : p.filename = none) (hbs : p.stream = .ok bs)
    (hv : utf8Decode bs = some v) :
    lookupKV out.vars n = some v :=
  acceptLoop_lookup_last env n p bs v hfile hbs hv ps 0
    { vars := [], writes := [] } out hlast hrun

/-- Witness for `accept_uploading_last_write_wins`: the "Alice" then "Bob"
sequence of the spec binds "name" to "Bob". -/
theorem accept_uploading_last_write_wins_witness :
    lookupKV ({ vars := [("name", "Bob")], writes := [] } : UploadOutput).vars "name" =
      some "Bob" :=
  accept_uploading_last_write_wins testEnv
    [⟨"name", none, none, .ok (asciiBytes "Alice")⟩,
     ⟨"name", none, none, .ok (asciiBytes "Bob")⟩]
    { vars := [("name", "Bob")], writes := [] } "name"
    ⟨"name", none, none, .ok (asciiBytes "Bob")⟩ (asciiBytes "Bob") "Bob"
    (by decide) rfl rfl rfl (by decide)

/-- C10 counterexample: a file part whose filename has NO extractable
extension but whose declared content type is not an image makes
`accept_uploading` return an ErrorReport rejection — it does not panic —
because the content-type test rejects the part before the extension is
ever unwrapped.  So "missing an extractable extension" alone does not
imply a panic, contrary to the claim. -/
theorem file_part_no_extension_counterexample :
    rustExtension "noext" = none
    ∧ accept_uploading testEnv
        [⟨"avatar", some "noext", some "text/plain", .ok [1, 2, 3]⟩] =
      .value (.error (.ParsingError "avatar" "invalid file type found: text/plain"))
    ∧ (.value (.error (.ParsingError "avatar" "invalid file type found: text/plain")) :
        RunResult (Except ApiError UploadOutput)) ≠ .panicked := by
  refine ⟨by decide, by decide, by decide⟩

/-- C10 amended: `accept_uploading` panics on a file part that declares no
content type at all, and on a file part whose declared content type has
prefix "image/" but whose filename has no extractable extension; a file
part with a non-image declared content type instead returns an ErrorReport
even when the extension is missing. -/
theorem accept_uploading_file_part_panics
    (env : Env) (p : FormPart) (ps : List FormPart) (fn : String)
    (h1 : p.filename = some fn) :
    (p.contentType = none → accept_uploading env (p :: ps) = .panicked)
    ∧ (∀ ct, p.contentType = some ct → strStartsWith ct "image/" = true →
        rustExtension fn = none → accept_uploading env (p :: ps) = .panicked) := by
  constructor
  · intro h2
    simp [accept_uploading, acceptLoop, acceptPart, h1, h2]
  · intro ct h2 h3 h4
    simp [accept_uploading, acceptLoop, acceptPart, h1, h2, h3, h4]

/-- Witness for `accept_uploading_file_part_panics`: a file part with no
declared content type, and an image part without extension, both panic. -/
theorem accept_uploading_file_part_panics_witness :
    accept_uploading testEnv
        [⟨"avatar", some "photo.png", none, .ok [1, 2, 3]⟩] = .panicked
    ∧ accept_uploading testEnv
        [⟨"avatar", some "noext", some "image/png", .ok [1, 2, 3]⟩] = .panicked :=
  ⟨(accept_uploading_file_part_panics testEnv
      ⟨"avatar", some "photo.png", none, .ok [1, 2, 3]⟩ [] "photo.png" rfl).1 rfl,
   (accept_uploading_file_part_panics testEnv
      ⟨"avatar", some "noext", some "image/png", .ok [1, 2, 3]⟩ [] "noext" rfl).2
     "image/png" rfl (by decide) (by decide)⟩
